import Mathlib

/-!
sshm: a shallow embedding of `main.go`.

The program lists the EC2 instances of an account, joins them with the
instances managed by the SSM agent, lets the operator pick one and opens a
session on it.  This file embeds the functions of `main.go` as Lean
definitions and proves properties of them.

Conventions of the embedding:

* a Go `string` is its sequence of bytes (`GoString`), `len` is `List.length`;
* a Go `int` is an `Int` (no length of a string reaches `2^63`);
* the SDK hands most fields over as pointers which the program dereferences
  without a test; those fields are taken as plain values here, and only the
  pointers the program tests against `nil` are `Option`s;
* the package-level variable `allInstances` is passed explicitly;
* calls to the outside world (AWS, the prompt, the file system, the
  environment) are parameters that give the answer of the outside world.
-/

namespace Sshm

/-! Strings. -/

/-- A Go string: a sequence of bytes. -/
abbrev GoString := List UInt8

/-- The bytes of a string literal of the source (Go source text is UTF-8). -/
def str (s : String) : GoString := s.toUTF8.data.toList

/-- The predicate `strings.HasSuffix`. -/
def HasSuffix (s suffix : GoString) : Bool := suffix.isSuffixOf s

/-- The function `strings.TrimSuffix`: `s` without the trailing `suffix`, or
`s` itself when it does not end with `suffix`. -/
def TrimSuffix (s suffix : GoString) : GoString :=
  if HasSuffix s suffix then s.take (s.length - suffix.length) else s

/-- The function `strings.Contains`: `substr` occurs in `s` at some offset. -/
def Contains (s substr : GoString) : Bool :=
  s.tails.any (fun t => substr.isPrefixOf t)

/-- Lower-casing of one ASCII byte: `A`..`Z` are moved to `a`..`z`. -/
def lowerByte (c : UInt8) : UInt8 :=
  if 65 ≤ c ∧ c ≤ 90 then c + 32 else c

/-- The function `strings.ToLower`.  On a string of ASCII bytes it maps
`A`..`Z` to `a`..`z` byte by byte; on any other string it maps every rune
through the Unicode case tables, which are not part of this development and
are the parameter `mapUnicode`. -/
def ToLower (mapUnicode : GoString → GoString) (s : GoString) : GoString :=
  if s.all (fun c => c < 128) then s.map lowerByte else mapUnicode s

/-- The call `strings.Replace(s, " ", "", -1)`: every space byte is deleted. -/
def removeSpaces (s : GoString) : GoString :=
  s.filter (fun c => c != 32)

/-- The function `strconv.Itoa`: decimal digits, with a leading `-` for a
negative number. -/
def Itoa (n : Int) : GoString := str (toString n)

/-! The record of the program. -/

/-- The type `instance` of `main.go`. -/
structure Instance where
  InstanceID : GoString
  ComputerName : GoString
  PrivateIPAddress : GoString
  PublicIPAddress : GoString
  Name : GoString
  InstanceState : GoString
  AgentState : GoString
  PlatformType : GoString
  PlatformName : GoString
deriving DecidableEq, Repr

/-- The zero value of `instance` (`var e instance`): nine empty strings. -/
def Instance.zero : Instance :=
  ⟨[], [], [], [], [], [], [], [], []⟩

/-! The formatter: `addSpaces` and `getFormattedInstancesList`. -/

/-- The function `addSpaces`: append one space as long as `size - len(text)`
is positive. -/
def addSpaces (text : GoString) (size : Int) : GoString :=
  if size - (text.length : Int) > 0 then addSpaces (text ++ [32]) size else text
termination_by (size - (text.length : Int)).toNat
decreasing_by
  simp only [List.length_append, List.length_singleton]
  omega

/-- The four running maxima `size1 .. size4` of `getFormattedInstancesList`. -/
structure Sizes where
  size1 : Int
  size2 : Int
  size3 : Int
  size4 : Int
deriving DecidableEq, Repr

/-- One turn of the first loop of `getFormattedInstancesList`. -/
def Sizes.step (s : Sizes) (i : Instance) : Sizes :=
  let s := if (i.Name.length : Int) > s.size1 then { s with size1 := i.Name.length } else s
  let s := if (i.ComputerName.length : Int) > s.size2 then
    { s with size2 := i.ComputerName.length } else s
  let s := if (i.InstanceID.length : Int) > s.size3 then
    { s with size3 := i.InstanceID.length } else s
  let s := if (i.PrivateIPAddress.length : Int) > s.size4 then
    { s with size4 := i.PrivateIPAddress.length } else s
  s

/-- The first loop of `getFormattedInstancesList`, from `0, 0, 0, 0`. -/
def columnSizes (managedInstances : List Instance) : Sizes :=
  managedInstances.foldl Sizes.step ⟨0, 0, 0, 0⟩

/-- The record `fi` built by one turn of the second loop. -/
def formatRow (s : Sizes) (i : Instance) : Instance :=
  let fi := Instance.zero
  let fi := { fi with Name := addSpaces i.Name s.size1 }
  let fi := { fi with ComputerName := addSpaces i.ComputerName s.size2 }
  let fi := { fi with InstanceID := addSpaces i.InstanceID s.size3 }
  let fi := { fi with PrivateIPAddress := addSpaces i.PrivateIPAddress s.size4 }
  let fi := { fi with PublicIPAddress := i.PublicIPAddress }
  let fi := { fi with InstanceState := i.InstanceState }
  let fi := { fi with AgentState := i.AgentState }
  let fi := { fi with PlatformType := i.PlatformType }
  let fi := { fi with PlatformName := i.PlatformName }
  fi

/-- The function `getFormattedInstancesList`. -/
def getFormattedInstancesList (managedInstances : List Instance) : List Instance :=
  let s := columnSizes managedInstances
  managedInstances.foldl (fun formattedInstancesList i => formattedInstancesList ++ [formatRow s i]) []

/-- Specification side: the column `col` of the output row `fi` is the column
of the input row `i` followed only by spaces, and its length is the maximum
length of that column over the input rows `l`. -/
def PaddedColumn (col : Instance → GoString) (l : List Instance) (i fi : Instance) : Prop :=
  (∃ n, col fi = col i ++ List.replicate n 32) ∧
    (∀ r ∈ l, (col r).length ≤ (col fi).length) ∧
    ∃ r ∈ l, (col r).length = (col fi).length

/-- Specification side: `size` is the maximum length of the column `col` over
the rows `l`, or the initial `0`: it bounds every row, and a row reaches it
unless it is `0`. -/
def IsWidth (col : Instance → GoString) (l : List Instance) (size : Int) : Prop :=
  (∀ r ∈ l, ((col r).length : Int) ≤ size) ∧
    (size = 0 ∨ ∃ r ∈ l, ((col r).length : Int) = size)

/-! The profile lister: `listProfiles`. -/

/-- The helper `dropCR` of `bufio`: a trailing carriage return is dropped. -/
def dropCR (data : GoString) : GoString :=
  if data.getLast? = some 13 then data.dropLast else data

/-- The split function `bufio.ScanLines` applied until the end of the input:
`line` holds the bytes read since the last newline.  Every newline ends a
line; bytes after the last newline form a final line; nothing follows a
final newline. -/
def scanLinesFrom (line : GoString) : GoString → List GoString
  | [] => if line = [] then [] else [dropCR line]
  | c :: rest =>
    if c = 10 then dropCR line :: scanLinesFrom [] rest
    else scanLinesFrom (line ++ [c]) rest

/-- The lines that `scanner.Scan()` and `scanner.Text()` yield for a file. -/
def scanLines (content : GoString) : List GoString :=
  scanLinesFrom [] content

/-- The text of the only regular expression of the program without its
anchor: the pattern reads, anchored at the start of the text, an opening
bracket, the word profile and one space. -/
def profileHeader : GoString := str "[profile "

/-- The call `reg.MatchString(t)`: the pattern is anchored at the start of
the text and is a literal, so it matches when the text starts with it. -/
def regMatchString (t : GoString) : Bool :=
  profileHeader.isPrefixOf t

/-- The call `reg.ReplaceAllString(t, repl)` where `repl` refers to group 1:
the pattern has no group, the reference expands to the empty string, and the
only possible match, at the start of the text, is cut out. -/
def regReplaceAllString (t : GoString) : GoString :=
  if regMatchString t then t.drop profileHeader.length else t

/-- One turn of the scanning loop of `listProfiles`. -/
def listProfiles.step (profiles : List GoString) (text : GoString) : List GoString :=
  if regMatchString text = true then
    let s := TrimSuffix (regReplaceAllString text) (str "]")
    profiles ++ [s]
  else profiles

/-- A configuration file that `os.Open` could open: its content, and the
error that `scanner.Err()` reports after the scanning loop, if any (a read
that fails, a line too long for the buffer of the scanner). -/
structure ConfigFile where
  content : GoString
  scanErr : Option GoString

/-- The function `listProfiles`; `file` is the answer of `os.Open` and of the
scanner, and an error is the message of `log.Fatal`. -/
def listProfiles (file : Except GoString ConfigFile) : Except GoString (List GoString) :=
  match file with
  | .error err => .error err
  | .ok f =>
    let profiles := (scanLines f.content).foldl listProfiles.step []
    match f.scanErr with
    | some err => .error err
    | none => .ok profiles

/-- Specification side: the line begins with the header text. -/
def beginsWithHeader (line : GoString) : Bool :=
  (str "[profile ").isPrefixOf line

/-- Specification side: the entry of a header line is the line without the
leading header text and without one trailing closing bracket. -/
def headerEntry (line : GoString) : GoString :=
  let rest := line.drop (str "[profile ").length
  if rest.getLast? = some 93 then rest.dropLast else rest

/-! The full listing: `listAllInstances`. -/

namespace ec2

/-- The type `ec2.Tag`. -/
structure Tag where
  Key : GoString
  Value : GoString
deriving DecidableEq, Repr

/-- The type `ec2.InstanceState`; `Name` is its only field the program reads. -/
structure InstanceState where
  Name : GoString
deriving DecidableEq, Repr

/-- The type `ec2.Instance`, with the fields the program reads.  The
program tests `PublicIpAddress` against `nil`. -/
structure Instance where
  InstanceId : GoString
  State : InstanceState
  PublicIpAddress : Option GoString
  Tags : List Tag
deriving DecidableEq, Repr

/-- The type `ec2.Reservation`. -/
structure Reservation where
  Instances : List Instance
deriving DecidableEq, Repr

/-- The type `ec2.DescribeInstancesOutput`. -/
structure DescribeInstancesOutput where
  Reservations : List Reservation
deriving DecidableEq, Repr

end ec2

/-- The record `e` that `listAllInstances` builds for the instance `i`. -/
def ec2Record (i : ec2.Instance) : Instance :=
  let e := Instance.zero
  let e := { e with Name := str "unnamed" }
  let e := i.Tags.foldl
    (fun e tag => if tag.Key = str "Name" then { e with Name := tag.Value } else e) e
  let e := { e with InstanceID := i.InstanceId }
  let e := { e with InstanceState := i.State.Name }
  let e := { e with PublicIPAddress := str "None" }
  let e := match i.PublicIpAddress with
    | some a => { e with PublicIPAddress := a }
    | none => { e with PublicIPAddress := str "N/A" }
  e

/-- One turn of the inner loop of `listAllInstances`: the record is appended
unless the state is `terminated` or `shutting-down`. -/
def listAllInstances.step (instances : List Instance) (i : ec2.Instance) : List Instance :=
  let e := ec2Record i
  if i.State.Name = str "terminated" ∨ i.State.Name = str "shutting-down" then instances
  else instances ++ [e]

/-- The function `listAllInstances`; `result` is the answer of
`client.DescribeInstances`, and an error is the message of `log.Fatal`. -/
def listAllInstances (result : Except GoString ec2.DescribeInstancesOutput) :
    Except GoString (List Instance) :=
  match result with
  | .error err => .error err
  | .ok response =>
    .ok (response.Reservations.foldl
      (fun instances reservation => reservation.Instances.foldl listAllInstances.step instances)
      [])

/-- Specification side: the instances of a response in response order. -/
def responseInstances (response : ec2.DescribeInstancesOutput) : List ec2.Instance :=
  (response.Reservations.map (fun r => r.Instances)).flatten

/-- Specification side: an instance is live when its state is neither
`terminated` nor `shutting-down`. -/
def isLive (i : ec2.Instance) : Bool :=
  i.State.Name != str "terminated" && i.State.Name != str "shutting-down"

/-! The managed listing: `listManagedInstances`. -/

namespace ssm

/-- The type `ssm.InstanceInformation`, with the fields the program reads. -/
structure InstanceInformation where
  InstanceId : GoString
  ComputerName : GoString
  IPAddress : GoString
  PlatformType : GoString
  PlatformName : GoString
  PlatformVersion : GoString
  PingStatus : GoString
deriving DecidableEq, Repr

/-- The type `ssm.DescribeInstanceInformationInput`. -/
structure DescribeInstanceInformationInput where
  MaxResults : Int
  NextToken : Option GoString
deriving DecidableEq, Repr

/-- The type `ssm.DescribeInstanceInformationOutput`. -/
structure DescribeInstanceInformationOutput where
  InstanceInformationList : List InstanceInformation
  NextToken : Option GoString
deriving DecidableEq, Repr

end ssm

/-- The service behind `client.DescribeInstanceInformation`: from its state
and a request, the output and the error of the call, and its next state.
The program only prints the error. -/
abbrev InformationApi (σ : Type) :=
  σ → ssm.DescribeInstanceInformationInput →
    (ssm.DescribeInstanceInformationOutput × Option GoString) × σ

/-- The record `e` that `listManagedInstances` builds for the item `i`. -/
def managedRecord (allInstances : List Instance) (i : ssm.InstanceInformation) : Instance :=
  let e := Instance.zero
  let e := { e with InstanceID := i.InstanceId }
  let e := { e with ComputerName := i.ComputerName }
  let e := { e with PrivateIPAddress := i.IPAddress }
  let e := { e with PlatformType := i.PlatformType }
  let e := { e with PlatformName := i.PlatformName ++ str " " ++ i.PlatformVersion }
  let e := if i.PingStatus ≠ str "Online" then { e with AgentState := str "Offline" }
    else { e with AgentState := i.PingStatus }
  let e := allInstances.foldl
    (fun e j =>
      if i.InstanceId = j.InstanceID then
        { e with Name := j.Name, PublicIPAddress := j.PublicIPAddress,
                 InstanceState := j.InstanceState }
      else e) e
  e

/-- The state of the loop of `listManagedInstances`: the next request, the
records gathered so far, and the requests sent so far. -/
structure ManagedLoop where
  input : ssm.DescribeInstanceInformationInput
  instances : List Instance
  requests : List ssm.DescribeInstanceInformationInput

/-- The loop of `listManagedInstances`.  Every turn sends `input`, appends
one record per item of the answer, and stops when the answer carries no
token; `none` means that `fuel` turns did not reach the end. -/
def listManagedInstances.loop {σ : Type} (client : InformationApi σ)
    (allInstances : List Instance) : Nat → σ → ManagedLoop → Option ManagedLoop
  | 0, _, _ => none
  | fuel + 1, service, st =>
    let info := (client service st.input).1.1
    let instances := info.InstanceInformationList.foldl
      (fun instances i => instances ++ [managedRecord allInstances i]) st.instances
    let requests := st.requests ++ [st.input]
    match info.NextToken with
    | none => some { st with instances := instances, requests := requests }
    | some token =>
      listManagedInstances.loop client allInstances fuel (client service st.input).2
        { input := { st.input with NextToken := some token },
          instances := instances, requests := requests }

/-- The run of `listManagedInstances` from its first request (at most 50
results, no token) and an empty list. -/
def listManagedInstances.run {σ : Type} (client : InformationApi σ) (service : σ)
    (allInstances : List Instance) (fuel : Nat) : Option ManagedLoop :=
  listManagedInstances.loop client allInstances fuel service
    { input := { MaxResults := 50, NextToken := none }, instances := [], requests := [] }

/-- The function `listManagedInstances`: the records of the finished loop. -/
def listManagedInstances {σ : Type} (client : InformationApi σ) (service : σ)
    (allInstances : List Instance) (fuel : Nat) : Option (List Instance) :=
  (listManagedInstances.run client service allInstances fuel).map (fun st => st.instances)

/-- Specification side: from the state `service`, the service answers the
request `input` with the first page of `pages` and each next request, built
from the token of the page before, with the next page; every page but the
last carries a token and the last carries none. -/
def ServesPages {σ : Type} (client : InformationApi σ) :
    σ → ssm.DescribeInstanceInformationInput →
      List ssm.DescribeInstanceInformationOutput → Prop
  | _, _, [] => False
  | service, input, [p] => (client service input).1.1 = p ∧ p.NextToken = none
  | service, input, p :: q :: rest =>
    (client service input).1.1 = p ∧
      ∃ token, p.NextToken = some token ∧
        ServesPages client (client service input).2 { input with NextToken := some token }
          (q :: rest)

/-- Specification side: a finite sequence of pages in which every page but
the last carries a token and the last carries none. -/
def wellFormedPages : List ssm.DescribeInstanceInformationOutput → Bool
  | [] => false
  | [p] => p.NextToken.isNone
  | p :: q :: rest => p.NextToken.isSome && wellFormedPages (q :: rest)

/-- A service that answers with the pages of a fixed sequence, one per call,
whatever the request; its state is the pages still to come. -/
def scriptedService : InformationApi (List ssm.DescribeInstanceInformationOutput) :=
  fun pages _ =>
    match pages with
    | [] => ((⟨[], none⟩, some (str "no page left")), [])
    | p :: rest => ((p, none), rest)

/-- Specification side: the items of all pages in page order. -/
def pageItems (pages : List ssm.DescribeInstanceInformationOutput) :
    List ssm.InstanceInformation :=
  (pages.map (fun p => p.InstanceInformationList)).flatten

/-- Specification side: the requests that fetch `pages` one after the other,
the first one being `first` and each next one carrying the token of the page
before. -/
def pageRequests (first : ssm.DescribeInstanceInformationInput)
    (pages : List ssm.DescribeInstanceInformationOutput) :
    List ssm.DescribeInstanceInformationInput :=
  first :: pages.dropLast.map (fun p => { first with NextToken := p.NextToken })

/-- Specification side: the record `e` is the merge of the managed item `i`
with the snapshot `allInstances`: identifier, host name, private address and
platform come from the item; Name, PublicIPAddress and InstanceState are
those of the last record of the snapshot with the identifier of the item,
and are empty when the snapshot has no such record. -/
def Merged (allInstances : List Instance) (i : ssm.InstanceInformation) (e : Instance) : Prop :=
  e.InstanceID = i.InstanceId ∧ e.ComputerName = i.ComputerName ∧
  e.PrivateIPAddress = i.IPAddress ∧ e.PlatformType = i.PlatformType ∧
  e.PlatformName = i.PlatformName ++ str " " ++ i.PlatformVersion ∧
  (∀ before j after, allInstances = before ++ j :: after → j.InstanceID = i.InstanceId →
    (∀ k ∈ after, k.InstanceID ≠ i.InstanceId) →
    e.Name = j.Name ∧ e.PublicIPAddress = j.PublicIPAddress ∧
      e.InstanceState = j.InstanceState) ∧
  ((∀ j ∈ allInstances, j.InstanceID ≠ i.InstanceId) →
    e.Name = [] ∧ e.PublicIPAddress = [] ∧ e.InstanceState = [])

/-! The selectors: `selectProfile` and `selectInstance`. -/

namespace promptui

/-- The type `promptui.Select`, with the fields the program sets; the
templates only colour the rows. -/
structure Select (α : Type) where
  Label : GoString
  Items : List α
  Size : Int
  Searcher : GoString → Nat → Option Bool
  StartInSearchMode : Bool
  HideSelected : Bool

end promptui

/-- How a run ends early: `os.Exit`, `log.Fatal`, or a run-time panic. -/
inductive Halt where
  | exit (code : Int)
  | fatal (message : GoString)
  | panic
deriving DecidableEq, Repr

/-- The searcher of `selectProfile`; `none` is an index out of range. -/
def selectProfile.searcher (mapUnicode : GoString → GoString) (profiles : List GoString)
    (input : GoString) (index : Nat) : Option Bool :=
  match profiles[index]? with
  | none => none
  | some j =>
    let name := ToLower mapUnicode j
    let input := ToLower mapUnicode input
    some (Contains name input)

/-- The function `selectProfile`; `run` is `prompt.Run()` and answers the
chosen index, or `none` for its error. -/
def selectProfile (mapUnicode : GoString → GoString)
    (run : promptui.Select GoString → Option Nat) (profiles : List GoString) :
    Except Halt GoString :=
  let prompt : promptui.Select GoString :=
    { Label := str "Profile", Items := profiles, Size := 10,
      Searcher := selectProfile.searcher mapUnicode profiles,
      StartInSearchMode := true, HideSelected := false }
  match run prompt with
  | none => .error (Halt.exit 0)
  | some selected =>
    match profiles[selected]? with
    | none => .error Halt.panic
    | some profile => .ok profile

/-- The searcher of `selectInstance`; `none` is an index out of range. -/
def selectInstance.searcher (mapUnicode : GoString → GoString)
    (managedInstances : List Instance) (input : GoString) (index : Nat) : Option Bool :=
  match managedInstances[index]? with
  | none => none
  | some j =>
    let name := removeSpaces (ToLower mapUnicode
      (j.InstanceID ++ j.ComputerName ++ j.PrivateIPAddress ++ j.PublicIPAddress ++ j.Name
        ++ j.InstanceState ++ j.AgentState ++ j.PlatformType ++ j.PlatformName))
    let input := removeSpaces (ToLower mapUnicode input)
    some (Contains name input)

/-- The counter `countRunning` of `selectInstance` after its loop. -/
def countRunning (allInstances : List Instance) : Int :=
  allInstances.foldl
    (fun countRunning i => if i.InstanceState = str "running" then countRunning + 1
      else countRunning) 0

/-- The counter `countOnline` of `selectInstance` after its loop. -/
def countOnline (managedInstances : List Instance) : Int :=
  managedInstances.foldl
    (fun countOnline i => if i.AgentState = str "Online" then countOnline + 1
      else countOnline) 0

/-- The offline count that `selectInstance` displays. -/
def countOffline (managedInstances : List Instance) : Int :=
  (managedInstances.length : Int) - countOnline managedInstances

/-- The prompt that `selectInstance` builds. -/
def selectInstance.prompt (mapUnicode : GoString → GoString)
    (allInstances managedInstances : List Instance) : promptui.Select Instance :=
  let formattedInstancesList := getFormattedInstancesList managedInstances
  { Label := str "Online: " ++ Itoa (countOnline managedInstances) ++ str " | Offline: "
      ++ Itoa ((managedInstances.length : Int) - countOnline managedInstances)
      ++ str " | Running: " ++ Itoa (countRunning allInstances) ++ str " ",
    Items := formattedInstancesList, Size := 15,
    Searcher := selectInstance.searcher mapUnicode managedInstances,
    StartInSearchMode := true, HideSelected := true }

/-- The function `selectInstance`; `run` is `prompt.Run()` and answers the
chosen index, or `none` for its error.  The result `none` is an index out of
range. -/
def selectInstance (mapUnicode : GoString → GoString)
    (run : promptui.Select Instance → Option Nat)
    (allInstances managedInstances : List Instance) : Option GoString :=
  match run (selectInstance.prompt mapUnicode allInstances managedInstances) with
  | none => some []
  | some selected =>
    match managedInstances[selected]? with
    | none => none
    | some i => some i.InstanceID

/-- Specification side: the white space bytes of ASCII (tab, line feed,
vertical tab, form feed, carriage return, space). -/
def isWhitespace (c : UInt8) : Bool :=
  c == 9 || c == 10 || c == 11 || c == 12 || c == 13 || c == 32

/-- Specification side: lower-cased and with all white space removed. -/
def normalizeAllWhitespace (mapUnicode : GoString → GoString) (s : GoString) : GoString :=
  (ToLower mapUnicode s).filter (fun c => !isWhitespace c)

/-- Specification side: the concatenation of the nine fields of a record, in
the order of the searcher. -/
def allFields (j : Instance) : GoString :=
  j.InstanceID ++ j.ComputerName ++ j.PrivateIPAddress ++ j.PublicIPAddress ++ j.Name
    ++ j.InstanceState ++ j.AgentState ++ j.PlatformType ++ j.PlatformName

/-! The orchestrator: `main`. -/

/-- The command line: the value of each flag when it is given. -/
structure CommandLine where
  p : Option GoString
  r : Option GoString
  i : Option GoString

/-- The function `flag.String` after `flag.Parse()`: the value given on the
command line, or the default. -/
def flagString (given : Option GoString) (value : GoString) : GoString :=
  given.getD value

/-- The function `os.Getenv` over an environment: the empty string for a
variable that is not set. -/
def Getenv (env : GoString → Option GoString) (key : GoString) : GoString :=
  (env key).getD []

/-- The outside world of one run: the environment (`os.LookupEnv`), the
configuration file, the two prompts, whether the session can be created for
a profile and a region, and the two services (`σ` is the type of the states
of the second one). -/
structure World (σ : Type) where
  env : GoString → Option GoString
  configFile : Except GoString ConfigFile
  runProfilePrompt : promptui.Select GoString → Option Nat
  newSession : GoString → GoString → Bool
  describeInstances : Except GoString ec2.DescribeInstancesOutput
  describeInstanceInformation : InformationApi σ
  informationService : σ
  runInstancePrompt : promptui.Select Instance → Option Nat

/-- The calls of `main` that the properties observe, in the order they
happen.  `selectInstance` carries the identifier it returned (`none` when it
did not return), `halt` ends the run early. -/
inductive Event where
  | listProfiles
  | selectProfile (profiles : List GoString)
  | newSession (profile region : GoString)
  | listAllInstances
  | listManagedInstances
  | selectInstance (selected : Option GoString)
  | startSSH (InstanceID region profile : GoString)
  | halt (h : Halt)
deriving DecidableEq, Repr

/-- The function `sort.Strings`: the strings in ascending byte-wise order. -/
def sortStrings (p : List GoString) : List GoString :=
  p.insertionSort (fun a b => a ≤ b)

/-- The profile resolution of `main`: the flag, then `AWS_PROFILE`, then
`AWS_DEFAULT_PROFILE`, then the choice among the listed profiles. -/
def resolveProfile {σ : Type} (mapUnicode : GoString → GoString) (w : World σ)
    (profile : GoString) :
    List Event × Except Halt GoString :=
  if profile = [] then
    if Getenv w.env (str "AWS_PROFILE") ≠ [] then
      ([], .ok (Getenv w.env (str "AWS_PROFILE")))
    else if Getenv w.env (str "AWS_DEFAULT_PROFILE") ≠ [] then
      ([], .ok (Getenv w.env (str "AWS_DEFAULT_PROFILE")))
    else
      match listProfiles w.configFile with
      | .error err => ([Event.listProfiles], .error (Halt.fatal err))
      | .ok p =>
        let p := sortStrings p
        ([Event.listProfiles, Event.selectProfile p],
          selectProfile mapUnicode w.runProfilePrompt p)
  else ([], .ok profile)

/-- The region resolution of `main`: `reg, present` is the answer of
`os.LookupEnv("AWS_DEFAULT_REGION")`, and the variable replaces the region
when the region is empty and the variable is present. -/
def resolveRegion (env : GoString → Option GoString) (region : GoString) : GoString :=
  match env (str "AWS_DEFAULT_REGION") with
  | some reg => if region = [] then reg else region
  | none => region

/-- The region that `main` resolves for a command line and an environment. -/
def mainRegion (cl : CommandLine) (env : GoString → Option GoString) : GoString :=
  resolveRegion env (flagString cl.r (str "eu-west-1"))

/-- The last statement of `main`: the direct connection, or the listings,
the selection and the connection. -/
def main.connect {σ : Type} (mapUnicode : GoString → GoString) (w : World σ) (fuel : Nat)
    (inst region profile : GoString) : List Event :=
  if inst ≠ [] then [Event.startSSH inst region profile]
  else
    match listAllInstances w.describeInstances with
    | .error err => [Event.listAllInstances, Event.halt (Halt.fatal err)]
    | .ok allInstances =>
      match listManagedInstances w.describeInstanceInformation w.informationService
          allInstances fuel with
      | none => [Event.listAllInstances, Event.listManagedInstances]
      | some managedInstances =>
        if managedInstances.length = 0 then
          [Event.listAllInstances, Event.listManagedInstances,
            Event.halt (Halt.fatal (str "No available instance"))]
        else
          match selectInstance mapUnicode w.runInstancePrompt allInstances managedInstances with
          | none =>
            [Event.listAllInstances, Event.listManagedInstances, Event.selectInstance none,
              Event.halt Halt.panic]
          | some selected =>
            if selected ≠ [] then
              [Event.listAllInstances, Event.listManagedInstances,
                Event.selectInstance (some selected), Event.startSSH selected region profile]
            else
              [Event.listAllInstances, Event.listManagedInstances,
                Event.selectInstance (some selected)]

/-- The start of `main` up to the session: the resolved profile and region
when the profile is resolved and the session is created. -/
def main.startup {σ : Type} (mapUnicode : GoString → GoString) (cl : CommandLine)
    (w : World σ) :
    List Event × Option (GoString × GoString) :=
  let profile := flagString cl.p []
  let region := flagString cl.r (str "eu-west-1")
  match resolveProfile mapUnicode w profile with
  | (events, .error h) => (events ++ [Event.halt h], none)
  | (events, .ok profile) =>
    let region := resolveRegion w.env region
    if w.newSession profile region = true then
      (events ++ [Event.newSession profile region], some (profile, region))
    else (events ++ [Event.newSession profile region, Event.halt Halt.panic], none)

/-- The function `main`: the calls it makes, in order.  The managed listing
runs at most `fuel` turns of its loop. -/
def main {σ : Type} (mapUnicode : GoString → GoString) (cl : CommandLine) (w : World σ)
    (fuel : Nat) :
    List Event :=
  let inst := flagString cl.i []
  match main.startup mapUnicode cl w with
  | (events, none) => events
  | (events, some (profile, region)) =>
    events ++ main.connect mapUnicode w fuel inst region profile

/-- The identifiers `startSSH` is called with during a run, in order. -/
def launches : List Event → List GoString
  | [] => []
  | Event.startSSH id _ _ :: rest => id :: launches rest
  | _ :: rest => launches rest

/-- An event is a call of the full listing, of the managed listing or of the
instance selector. -/
def isCatalogCall : Event → Bool
  | Event.listAllInstances => true
  | Event.listManagedInstances => true
  | Event.selectInstance _ => true
  | _ => false

/-- An event of the start of `main`: neither a listing, nor the instance
selector, nor the launcher. -/
def isStartupEvent : Event → Bool
  | Event.listProfiles => true
  | Event.selectProfile _ => true
  | Event.newSession _ _ => true
  | Event.halt _ => true
  | _ => false

/-! Sample inputs. -/

/-- A response with one terminated and one running instance. -/
def twoStatesResponse : ec2.DescribeInstancesOutput :=
  { Reservations :=
      [ { Instances :=
            [ { InstanceId := str "i-0aa", State := ⟨str "terminated"⟩, PublicIpAddress := none,
                Tags := [⟨str "Name", str "old"⟩] },
              { InstanceId := str "i-0bb", State := ⟨str "running"⟩,
                PublicIpAddress := some (str "203.0.113.7"),
                Tags := [⟨str "env", str "prod"⟩, ⟨str "Name", str "web"⟩] } ] } ] }

/-- Three pages of managed items, the tokens being `t1` and `t2`. -/
def threePages : List ssm.DescribeInstanceInformationOutput :=
  [ ⟨[⟨str "i-01", str "alpha", str "10.0.0.1", str "Linux", str "Ubuntu", str "22.04",
        str "Online"⟩,
      ⟨str "i-02", str "beta", str "10.0.0.2", str "Linux", str "Debian", str "12",
        str "ConnectionLost"⟩], some (str "t1")⟩,
    ⟨[⟨str "i-03", str "gamma", str "10.0.0.3", str "Windows", str "Server", str "2022",
        str "Online"⟩], some (str "t2")⟩,
    ⟨[⟨str "i-04", str "delta", str "10.0.0.4", str "Linux", str "Amazon Linux", str "2",
        str "Inactive"⟩], none⟩ ]

/-- A service without state that answers the first request with the first
page of `threePages`, the token `t1` with the second and `t2` with the third. -/
def threePageService : InformationApi Unit := fun service input =>
  match input.NextToken with
  | none => ((threePages.getD 0 ⟨[], none⟩, none), service)
  | some token =>
    if token = str "t1" then ((threePages.getD 1 ⟨[], none⟩, none), service)
    else if token = str "t2" then ((threePages.getD 2 ⟨[], none⟩, none), service)
    else ((⟨[], none⟩, some (str "invalid token")), service)

/-- A snapshot of the full listing with two records for `i-01` and one for
`i-03`. -/
def sampleSnapshot : List Instance :=
  [ { Instance.zero with InstanceID := str "i-01", Name := str "old",
                         PublicIPAddress := str "N/A", InstanceState := str "stopped" },
    { Instance.zero with InstanceID := str "i-03", Name := str "win",
                         PublicIPAddress := str "N/A", InstanceState := str "running" },
    { Instance.zero with InstanceID := str "i-01", Name := str "web",
                         PublicIPAddress := str "198.51.100.4",
                         InstanceState := str "running" } ]

/-- Two rows with columns of different lengths. -/
def twoRows : List Instance :=
  [ { Instance.zero with InstanceID := str "i-1", ComputerName := str "host",
                         PrivateIPAddress := str "10.0.0.1", Name := str "web",
                         AgentState := str "Online" },
    { Instance.zero with InstanceID := str "i-22", ComputerName := str "h",
                         PrivateIPAddress := str "10.0.0.22", Name := str "database",
                         AgentState := str "Offline" } ]

/-- A record whose Name holds a tab between two letters. -/
def tabRecord : Instance :=
  { Instance.zero with InstanceID := str "i-01", Name := str "a\tb" }

/-- A record named `Web Server`. -/
def webRecord : Instance :=
  { Instance.zero with InstanceID := str "i-0f3", Name := str "Web Server" }

/-- An environment in which only `AWS_DEFAULT_REGION` is set. -/
def regionEnv : GoString → Option GoString :=
  fun key => if key = str "AWS_DEFAULT_REGION" then some (str "us-east-1") else none

/-- A world in which `AWS_PROFILE` is `dev` and `AWS_DEFAULT_REGION` is
`us-east-1`. -/
def regionWorld : World Unit :=
  { env := fun key =>
      if key = str "AWS_PROFILE" then some (str "dev")
      else if key = str "AWS_DEFAULT_REGION" then some (str "us-east-1")
      else none
    configFile := .error (str "open: no such file")
    runProfilePrompt := fun _ => none
    newSession := fun _ _ => true
    describeInstances := .ok ⟨[]⟩
    describeInstanceInformation := fun service _ => ((⟨[], none⟩, none), service)
    informationService := ()
    runInstancePrompt := fun _ => none }

/-- A world in which no profile comes from the environment, the file lists
one profile, and the operator cancels the profile prompt. -/
def cancelWorld : World Unit :=
  { env := fun _ => none
    configFile := .ok ⟨str "[profile dev]\n", none⟩
    runProfilePrompt := fun _ => none
    newSession := fun _ _ => true
    describeInstances := .ok ⟨[]⟩
    describeInstanceInformation := fun service _ => ((⟨[], none⟩, none), service)
    informationService := ()
    runInstancePrompt := fun _ => none }

/-- A world in which the profile comes from `AWS_PROFILE`, one instance is
managed and the operator picks it. -/
def pickWorld : World Unit :=
  { env := fun key => if key = str "AWS_PROFILE" then some (str "dev") else none
    configFile := .error (str "open: no such file")
    runProfilePrompt := fun _ => none
    newSession := fun _ _ => true
    describeInstances := .ok ⟨[]⟩
    describeInstanceInformation := fun service _ =>
      ((⟨[⟨str "i-07", str "host", str "10.0.0.7", str "Linux", str "Ubuntu", str "22.04",
          str "Online"⟩], none⟩, none), service)
    informationService := ()
    runInstancePrompt := fun _ => some 0 }

/-! Theorems.  The formatter. -/

/-- The loop of `addSpaces` in closed form: the text followed by as many
spaces as `size` exceeds its length. -/
theorem addSpaces_eq (text : GoString) (size : Int) :
    addSpaces text size = text ++ List.replicate (size - (text.length : Int)).toNat 32 := by
  generalize hn : (size - (text.length : Int)).toNat = n
  induction n generalizing text with
  | zero =>
    rw [addSpaces]
    have : ¬ size - (text.length : Int) > 0 := by omega
    simp [this]
  | succ n ih =>
    rw [addSpaces]
    have h : size - (text.length : Int) > 0 := by omega
    simp only [h, if_true]
    rw [ih]
    · simp [List.replicate_succ]
    · simp only [List.length_append, List.length_singleton]
      omega

theorem addSpaces_of_le (text : GoString) (size : Int) (h : size ≤ (text.length : Int)) :
    addSpaces text size = text := by
  rw [addSpaces_eq]
  have : (size - (text.length : Int)).toNat = 0 := by omega
  simp [this]

/-- A running maximum is at least its start, bounds every element, and is the
start or the value of an element. -/
theorem foldl_max_spec (f : Instance → Int) (l : List Instance) (m0 : Int) :
    m0 ≤ l.foldl (fun m r => if f r > m then f r else m) m0 ∧
    (∀ r ∈ l, f r ≤ l.foldl (fun m r => if f r > m then f r else m) m0) ∧
    (l.foldl (fun m r => if f r > m then f r else m) m0 = m0 ∨
      ∃ r ∈ l, f r = l.foldl (fun m r => if f r > m then f r else m) m0) := by
  induction l generalizing m0 with
  | nil => simp
  | cons a l ih =>
    simp only [List.foldl_cons, List.mem_cons, forall_eq_or_imp, exists_eq_or_imp]
    obtain ⟨h1, h2, h3⟩ := ih (if f a > m0 then f a else m0)
    by_cases hc : f a > m0
    · simp only [hc, if_true] at h1 h2 h3 ⊢
      refine ⟨by omega, ⟨h1, h2⟩, ?_⟩
      rcases h3 with h3 | h3
      · right; left; exact h3.symm
      · right; right; exact h3
    · simp only [hc, if_false] at h1 h2 h3 ⊢
      refine ⟨h1, ⟨by omega, h2⟩, ?_⟩
      rcases h3 with h3 | h3
      · left; exact h3
      · right; right; exact h3

theorem foldl_append_singleton_map {α β : Type} (f : α → β) (l : List α) (init : List β) :
    l.foldl (fun acc i => acc ++ [f i]) init = init ++ l.map f := by
  induction l generalizing init with
  | nil => simp
  | cons a l ih => simp [ih]

/-- The second loop of the formatter maps `formatRow` over the rows. -/
theorem getFormattedInstancesList_eq_map (l : List Instance) :
    getFormattedInstancesList l = l.map (formatRow (columnSizes l)) := by
  simp [getFormattedInstancesList, foldl_append_singleton_map]

theorem size1_foldl (l : List Instance) (s : Sizes) :
    (l.foldl Sizes.step s).size1
      = l.foldl (fun m r => if (r.Name.length : Int) > m then (r.Name.length : Int) else m)
          s.size1 := by
  induction l generalizing s with
  | nil => rfl
  | cons a l ih =>
    simp only [List.foldl_cons]
    rw [ih]
    congr 1
    simp only [Sizes.step]
    split_ifs <;> rfl

theorem size2_foldl (l : List Instance) (s : Sizes) :
    (l.foldl Sizes.step s).size2
      = l.foldl (fun m r => if (r.ComputerName.length : Int) > m then
          (r.ComputerName.length : Int) else m) s.size2 := by
  induction l generalizing s with
  | nil => rfl
  | cons a l ih =>
    simp only [List.foldl_cons]
    rw [ih]
    congr 1
    simp only [Sizes.step]
    split_ifs <;> rfl

theorem size3_foldl (l : List Instance) (s : Sizes) :
    (l.foldl Sizes.step s).size3
      = l.foldl (fun m r => if (r.InstanceID.length : Int) > m then
          (r.InstanceID.length : Int) else m) s.size3 := by
  induction l generalizing s with
  | nil => rfl
  | cons a l ih =>
    simp only [List.foldl_cons]
    rw [ih]
    congr 1
    simp only [Sizes.step]
    split_ifs <;> rfl

theorem size4_foldl (l : List Instance) (s : Sizes) :
    (l.foldl Sizes.step s).size4
      = l.foldl (fun m r => if (r.PrivateIPAddress.length : Int) > m then
          (r.PrivateIPAddress.length : Int) else m) s.size4 := by
  induction l generalizing s with
  | nil => rfl
  | cons a l ih =>
    simp only [List.foldl_cons]
    rw [ih]
    congr 1
    simp only [Sizes.step]
    split_ifs <;> rfl

theorem isWidth_foldl (col : Instance → GoString) (l : List Instance) :
    IsWidth col l
      (l.foldl (fun m r => if ((col r).length : Int) > m then ((col r).length : Int) else m) 0) := by
  obtain ⟨_, h2, h3⟩ := foldl_max_spec (fun r => ((col r).length : Int)) l 0
  exact ⟨h2, h3⟩

theorem columnSizes_isWidth (l : List Instance) :
    IsWidth Instance.Name l (columnSizes l).size1 ∧
    IsWidth Instance.ComputerName l (columnSizes l).size2 ∧
    IsWidth Instance.InstanceID l (columnSizes l).size3 ∧
    IsWidth Instance.PrivateIPAddress l (columnSizes l).size4 := by
  unfold columnSizes
  rw [size1_foldl, size2_foldl, size3_foldl, size4_foldl]
  exact ⟨isWidth_foldl _ l, isWidth_foldl _ l, isWidth_foldl _ l, isWidth_foldl _ l⟩

theorem addSpaces_length_of_isWidth {col : Instance → GoString} {l : List Instance}
    {size : Int} (hw : IsWidth col l size) {i : Instance} (hi : i ∈ l) :
    ((addSpaces (col i) size).length : Int) = size := by
  rw [addSpaces_eq]
  have := hw.1 i hi
  simp only [List.length_append, List.length_replicate]
  omega

theorem paddedColumn_of_isWidth {col : Instance → GoString} {l : List Instance}
    {size : Int} (hw : IsWidth col l size) {i fi : Instance} (hi : i ∈ l)
    (hfi : col fi = addSpaces (col i) size) : PaddedColumn col l i fi := by
  have hlen : ((col fi).length : Int) = size := by
    rw [hfi]; exact addSpaces_length_of_isWidth hw hi
  refine ⟨⟨_, by rw [hfi, addSpaces_eq]⟩, ?_, ?_⟩
  · intro r hr
    have := hw.1 r hr
    omega
  · rcases hw.2 with h0 | ⟨r, hr, hrl⟩
    · refine ⟨i, hi, ?_⟩
      have := hw.1 i hi
      omega
    · exact ⟨r, hr, by omega⟩

theorem isWidth_le_of_const {col : Instance → GoString} {l : List Instance} {size c : Int}
    (hw : IsWidth col l size) (hc : ∀ r ∈ l, ((col r).length : Int) = c) (h0 : 0 ≤ c) :
    size ≤ c := by
  rcases hw.2 with h | ⟨r, hr, hrl⟩
  · omega
  · have := hc r hr
    omega

/-- C8. Column alignment: the output of `getFormattedInstancesList` has the
rows of the input in the same order and number; in every row the columns
Name, ComputerName, InstanceID and PrivateIPAddress are the original string
followed only by spaces, of length exactly the maximum length of that column
over all input rows, and the five other fields are copied unchanged. -/
theorem getFormattedInstancesList_aligns (l : List Instance) :
    (getFormattedInstancesList l).length = l.length ∧
    List.Forall₂
      (fun i fi =>
        PaddedColumn Instance.Name l i fi ∧
        PaddedColumn Instance.ComputerName l i fi ∧
        PaddedColumn Instance.InstanceID l i fi ∧
        PaddedColumn Instance.PrivateIPAddress l i fi ∧
        fi.PublicIPAddress = i.PublicIPAddress ∧
        fi.InstanceState = i.InstanceState ∧
        fi.AgentState = i.AgentState ∧
        fi.PlatformType = i.PlatformType ∧
        fi.PlatformName = i.PlatformName)
      l (getFormattedInstancesList l) := by
  rw [getFormattedInstancesList_eq_map]
  obtain ⟨w1, w2, w3, w4⟩ := columnSizes_isWidth l
  refine ⟨by simp, ?_⟩
  rw [List.forall₂_map_right_iff, List.forall₂_same]
  intro i hi
  exact ⟨paddedColumn_of_isWidth w1 hi rfl, paddedColumn_of_isWidth w2 hi rfl,
    paddedColumn_of_isWidth w3 hi rfl, paddedColumn_of_isWidth w4 hi rfl,
    rfl, rfl, rfl, rfl, rfl⟩

/-- Two rows with columns of different lengths come out padded to the widths
8, 4, 4 and 9. -/
theorem getFormattedInstancesList_aligns_witness :
    (getFormattedInstancesList twoRows).length = twoRows.length ∧
    (getFormattedInstancesList twoRows).map
        (fun fi => (fi.Name, fi.ComputerName, fi.InstanceID, fi.PrivateIPAddress, fi.AgentState))
      = [(str "web     ", str "host", str "i-1 ", str "10.0.0.1 ", str "Online"),
         (str "database", str "h   ", str "i-22", str "10.0.0.22", str "Offline")] := by
  refine ⟨(getFormattedInstancesList_aligns twoRows).1, ?_⟩
  rw [getFormattedInstancesList_eq_map]
  have hs : columnSizes twoRows = ⟨8, 4, 4, 9⟩ := by decide
  rw [hs]
  simp only [twoRows, List.map, formatRow, addSpaces_eq]
  decide

/-- C10. Idempotence of the column alignment: formatting an already
formatted list adds no space and changes no field. -/
theorem getFormattedInstancesList_idempotent (l : List Instance) :
    getFormattedInstancesList (getFormattedInstancesList l) = getFormattedInstancesList l := by
  obtain ⟨w1, w2, w3, w4⟩ := columnSizes_isWidth l
  obtain ⟨v1, v2, v3, v4⟩ := columnSizes_isWidth (getFormattedInstancesList l)
  rw [getFormattedInstancesList_eq_map (getFormattedInstancesList l)]
  generalize columnSizes (getFormattedInstancesList l) = s2 at v1 v2 v3 v4 ⊢
  rw [getFormattedInstancesList_eq_map l] at v1 v2 v3 v4 ⊢
  have c1 : ∀ r ∈ l.map (formatRow (columnSizes l)),
      ((Instance.Name r).length : Int) = (columnSizes l).size1 := by
    intro r hr
    obtain ⟨i, hi, rfl⟩ := List.mem_map.1 hr
    exact addSpaces_length_of_isWidth w1 hi
  have c2 : ∀ r ∈ l.map (formatRow (columnSizes l)),
      ((Instance.ComputerName r).length : Int) = (columnSizes l).size2 := by
    intro r hr
    obtain ⟨i, hi, rfl⟩ := List.mem_map.1 hr
    exact addSpaces_length_of_isWidth w2 hi
  have c3 : ∀ r ∈ l.map (formatRow (columnSizes l)),
      ((Instance.InstanceID r).length : Int) = (columnSizes l).size3 := by
    intro r hr
    obtain ⟨i, hi, rfl⟩ := List.mem_map.1 hr
    exact addSpaces_length_of_isWidth w3 hi
  have c4 : ∀ r ∈ l.map (formatRow (columnSizes l)),
      ((Instance.PrivateIPAddress r).length : Int) = (columnSizes l).size4 := by
    intro r hr
    obtain ⟨i, hi, rfl⟩ := List.mem_map.1 hr
    exact addSpaces_length_of_isWidth w4 hi
  refine (List.map_congr_left ?_).trans (List.map_id _)
  intro fi hfi
  have e1 := c1 fi hfi
  have e2 := c2 fi hfi
  have e3 := c3 fi hfi
  have e4 := c4 fi hfi
  have l1 := isWidth_le_of_const v1 c1 (by omega)
  have l2 := isWidth_le_of_const v2 c2 (by omega)
  have l3 := isWidth_le_of_const v3 c3 (by omega)
  have l4 := isWidth_le_of_const v4 c4 (by omega)
  cases fi
  simp only [formatRow, Instance.zero]
  simp only at e1 e2 e3 e4
  rw [addSpaces_of_le _ _ (by omega), addSpaces_of_le _ _ (by omega),
    addSpaces_of_le _ _ (by omega), addSpaces_of_le _ _ (by omega)]
  rfl

/-- Formatting the two padded rows once more changes nothing. -/
theorem getFormattedInstancesList_idempotent_witness :
    getFormattedInstancesList (getFormattedInstancesList twoRows)
      = getFormattedInstancesList twoRows :=
  getFormattedInstancesList_idempotent twoRows

/-! The profile lister. -/

theorem trimSuffix_bracket (s : GoString) :
    TrimSuffix s (str "]") = if s.getLast? = some 93 then s.dropLast else s := by
  have hb : str "]" = [93] := rfl
  rw [hb]
  unfold TrimSuffix HasSuffix
  by_cases h : s.getLast? = some 93
  · obtain ⟨ys, rfl⟩ := List.getLast?_eq_some_iff.1 h
    have : ([93] : GoString).isSuffixOf (ys ++ [93]) = true := by
      rw [List.isSuffixOf_iff_suffix]
      exact List.suffix_append _ _
    simp [this]
  · have : ([93] : GoString).isSuffixOf s = false := by
      rw [Bool.eq_false_iff]
      intro hs
      rw [List.isSuffixOf_iff_suffix] at hs
      obtain ⟨t, rfl⟩ := hs
      exact h (by simp)
    simp [this, h]

theorem listProfiles_step_foldl (lines : List GoString) (acc : List GoString) :
    lines.foldl listProfiles.step acc
      = acc ++ (lines.filter beginsWithHeader).map headerEntry := by
  induction lines generalizing acc with
  | nil => simp
  | cons t lines ih =>
    rw [List.foldl_cons, ih]
    unfold listProfiles.step
    by_cases h : regMatchString t = true
    · have hb : beginsWithHeader t = true := h
      have he : TrimSuffix (regReplaceAllString t) (str "]") = headerEntry t := by
        rw [trimSuffix_bracket]
        simp only [regReplaceAllString, h, if_true, headerEntry]
        rfl
      simp [h, hb, he]
    · have hb : ¬ beginsWithHeader t = true := h
      simp [h, hb]

/-- C4. Profile lister: for every content of the configuration file, the
result of `listProfiles` holds, in file order, exactly one entry per line
that begins with the header text and none for any other line; the entry of a
header line made of the header text, a name and one closing bracket is the
name; and the result depends only on the lines that begin with the header
text. -/
theorem listProfiles_extracts (content : GoString) :
    listProfiles (.ok ⟨content, none⟩)
        = .ok (((scanLines content).filter beginsWithHeader).map headerEntry) ∧
    (∀ line, beginsWithHeader line = true ↔ ∃ rest, line = str "[profile " ++ rest) ∧
    (∀ name, beginsWithHeader (str "[profile " ++ name ++ str "]") = true ∧
      headerEntry (str "[profile " ++ name ++ str "]") = name) ∧
    (∀ other, (scanLines other).filter beginsWithHeader
        = (scanLines content).filter beginsWithHeader →
      listProfiles (.ok ⟨other, none⟩) = listProfiles (.ok ⟨content, none⟩)) := by
  have key : ∀ c, listProfiles (.ok ⟨c, none⟩)
      = .ok (((scanLines c).filter beginsWithHeader).map headerEntry) := by
    intro c
    simp [listProfiles, listProfiles_step_foldl]
  refine ⟨key content, ?_, ?_, ?_⟩
  · intro line
    unfold beginsWithHeader
    rw [ List.isPrefixOf_iff_prefix]
    constructor
    · rintro ⟨rest, rfl⟩; exact ⟨rest, rfl⟩
    · rintro ⟨rest, rfl⟩; exact ⟨rest, rfl⟩
  · intro name
    constructor
    · unfold beginsWithHeader
      rw [ List.isPrefixOf_iff_prefix, List.append_assoc]
      exact List.prefix_append _ _
    · unfold headerEntry
      have hb : str "]" = [93] := rfl
      rw [hb, List.append_assoc, List.drop_left]
      simp
  · intro other h
    rw [key other, key content, h]

/-- A file with a default section, keys, a comment, a blank line and two
profile sections yields the two profile names, as does another file with the
same two header lines. -/
theorem listProfiles_extracts_witness :
    listProfiles
        (.ok ⟨str "[default]\nregion = eu-west-1\n[profile dev]\r\n# note\n\n[profile prod]\n",
          none⟩)
      = .ok [str "dev", str "prod"] ∧
    listProfiles (.ok ⟨str "[profile dev]\nkey = value\n[profile prod]", none⟩)
      = listProfiles
          (.ok ⟨str "[default]\nregion = eu-west-1\n[profile dev]\r\n# note\n\n[profile prod]\n",
            none⟩) :=
  ⟨(listProfiles_extracts _).1.trans (congrArg Except.ok (by decide)),
    (listProfiles_extracts _).2.2.2 _ (by decide)⟩

/-! The full listing. -/

theorem listAllInstances_step_foldl (is : List ec2.Instance) (acc : List Instance) :
    is.foldl listAllInstances.step acc = acc ++ (is.filter isLive).map ec2Record := by
  induction is generalizing acc with
  | nil => simp
  | cons i is ih =>
    rw [List.foldl_cons, ih]
    unfold listAllInstances.step
    by_cases h : i.State.Name = str "terminated" ∨ i.State.Name = str "shutting-down"
    · have hl : isLive i = false := by
        unfold isLive
        rcases h with h | h <;> simp [h]
      simp [h, hl]
    · have hl : isLive i = true := by
        unfold isLive
        push_neg at h
        simp [h.1, h.2]
      rw [if_neg h]
      simp [hl]

theorem listAllInstances_reservations_foldl (rs : List ec2.Reservation) (acc : List Instance) :
    rs.foldl
        (fun instances reservation => reservation.Instances.foldl listAllInstances.step instances)
        acc
      = acc ++ (((rs.map (fun r => r.Instances)).flatten).filter isLive).map ec2Record := by
  induction rs generalizing acc with
  | nil => simp
  | cons r rs ih =>
    rw [List.foldl_cons, ih, listAllInstances_step_foldl]
    simp

/-- C2. Full listing: for every response of the compute inventory, the
snapshot of `listAllInstances` holds, in response order, exactly one record
for each instance whose state is neither `terminated` nor `shutting-down`,
and no record for a terminated or shutting-down instance; the record carries
the identifier and the state of its instance. -/
theorem listAllInstances_keeps_live (response : ec2.DescribeInstancesOutput) :
    listAllInstances (.ok response)
        = .ok (((responseInstances response).filter isLive).map ec2Record) ∧
    (∀ i, isLive i = true ↔
      (i.State.Name ≠ str "terminated" ∧ i.State.Name ≠ str "shutting-down")) ∧
    (∀ i, (ec2Record i).InstanceID = i.InstanceId ∧
      (ec2Record i).InstanceState = i.State.Name) := by
  refine ⟨?_, ?_, ?_⟩
  · simp [listAllInstances, responseInstances, listAllInstances_reservations_foldl]
  · intro i
    simp [isLive]
  · intro i
    unfold ec2Record
    cases i.PublicIpAddress <;> exact ⟨rfl, rfl⟩

/-- A response with one terminated and one running instance yields a
snapshot holding only the running one. -/
theorem listAllInstances_keeps_live_witness :
    listAllInstances (.ok twoStatesResponse)
      = .ok [ { InstanceID := str "i-0bb", ComputerName := [], PrivateIPAddress := [],
                PublicIPAddress := str "203.0.113.7", Name := str "web",
                InstanceState := str "running", AgentState := [], PlatformType := [],
                PlatformName := [] } ] :=
  (listAllInstances_keeps_live twoStatesResponse).1.trans (congrArg Except.ok (by decide))

/-! The managed listing. -/

/-- The loop against a service that serves `pages`: it ends within one turn
per page, appends one record per item and sends one request per page. -/
theorem loop_serves {σ : Type} (client : InformationApi σ) (allInstances : List Instance) :
    ∀ (pages : List ssm.DescribeInstanceInformationOutput) (fuel : Nat) (service : σ)
      (st : ManagedLoop),
      ServesPages client service st.input pages → pages.length ≤ fuel →
      ∃ fin, listManagedInstances.loop client allInstances fuel service st = some fin ∧
        fin.instances = st.instances ++ (pageItems pages).map (managedRecord allInstances) ∧
        fin.requests = st.requests ++ pageRequests st.input pages := by
  intro pages
  induction pages with
  | nil => intro fuel service st h; exact absurd h (by simp [ServesPages])
  | cons p rest ih =>
    intro fuel service st h hf
    cases fuel with
    | zero => simp at hf
    | succ fuel =>
      cases rest with
      | nil =>
        obtain ⟨hp, hn⟩ := h
        have hloop : listManagedInstances.loop client allInstances (fuel + 1) service st
            = some { st with
                instances := p.InstanceInformationList.foldl
                  (fun instances i => instances ++ [managedRecord allInstances i]) st.instances,
                requests := st.requests ++ [st.input] } := by
          rw [listManagedInstances.loop]
          simp only [hp, hn]
        refine ⟨_, hloop, ?_, ?_⟩
        · simp [pageItems, foldl_append_singleton_map]
        · simp [pageRequests]
      | cons q rest =>
        obtain ⟨hp, token, hn, hrest⟩ := h
        have hf2 : (q :: rest).length ≤ fuel := by
          simp only [List.length_cons] at hf ⊢
          omega
        obtain ⟨fin, hfin, hi, hr⟩ := ih fuel (client service st.input).2
          { input := { st.input with NextToken := some token },
            instances := p.InstanceInformationList.foldl
              (fun instances i => instances ++ [managedRecord allInstances i]) st.instances,
            requests := st.requests ++ [st.input] } hrest hf2
        refine ⟨fin, ?_, ?_, ?_⟩
        · rw [listManagedInstances.loop]
          simp only [hp, hn]
          exact hfin
        · rw [hi]
          simp [pageItems, foldl_append_singleton_map]
        · rw [hr]
          simp [pageRequests, hn]

/-- The scripted service serves every well-formed sequence of pages. -/
theorem scriptedService_serves :
    ∀ (pages : List ssm.DescribeInstanceInformationOutput)
      (input : ssm.DescribeInstanceInformationInput),
      wellFormedPages pages = true → ServesPages scriptedService pages input pages := by
  intro pages
  induction pages with
  | nil => intro input h; simp [wellFormedPages] at h
  | cons p rest ih =>
    intro input h
    cases rest with
    | nil =>
      simp only [wellFormedPages, Option.isNone_iff_eq_none] at h
      exact ⟨rfl, h⟩
    | cons q rest =>
      simp only [wellFormedPages, Bool.and_eq_true, Option.isSome_iff_exists] at h
      obtain ⟨⟨token, ht⟩, hrest⟩ := h
      exact ⟨rfl, token, ht, ih _ hrest⟩

/-- The service without state serves the three pages by their tokens. -/
theorem threePageService_serves :
    ServesPages threePageService () { MaxResults := 50, NextToken := none } threePages :=
  ⟨rfl, str "t1", rfl, rfl, str "t2", rfl, rfl, rfl⟩

/-- C3. Managed listing pagination: for every finite sequence of pages in
which every page but the last carries a token and the last carries none,
some service answers with that sequence, and against every service that
does, the loop of `listManagedInstances` ends (given fuel for one turn per
page), it has sent exactly one request per page, the first without token and
each next one with the token of the page before, and the catalog is, in page
order, one record per item of every page. -/
theorem listManagedInstances_paginates (allInstances : List Instance)
    (pages : List ssm.DescribeInstanceInformationOutput) (fuel : Nat)
    (hpages : wellFormedPages pages = true) (hfuel : pages.length ≤ fuel) :
    ServesPages scriptedService pages { MaxResults := 50, NextToken := none } pages ∧
    ∀ (σ : Type) (client : InformationApi σ) (service : σ),
      ServesPages client service { MaxResults := 50, NextToken := none } pages →
      ∃ fin, listManagedInstances.run client service allInstances fuel = some fin ∧
        fin.requests = pageRequests { MaxResults := 50, NextToken := none } pages ∧
        fin.requests.length = pages.length ∧
        fin.instances = (pageItems pages).map (managedRecord allInstances) ∧
        listManagedInstances client service allInstances fuel
          = some ((pageItems pages).map (managedRecord allInstances)) := by
  refine ⟨scriptedService_serves pages _ hpages, ?_⟩
  intro σ client service hserve
  obtain ⟨fin, hfin, hi, hr⟩ := loop_serves client allInstances pages fuel service
    { input := { MaxResults := 50, NextToken := none }, instances := [], requests := [] }
    hserve hfuel
  simp only [List.nil_append] at hi hr
  refine ⟨fin, hfin, hr, ?_, hi, ?_⟩
  · rw [hr]
    cases pages with
    | nil => exact absurd hserve (by simp [ServesPages])
    | cons p rest => simp [pageRequests]
  · unfold listManagedInstances listManagedInstances.run
    rw [hfin, Option.map_some', hi]

/-- Three pages: three requests, the second and third carrying the tokens of
the first and second page, and the four records in page order. -/
theorem listManagedInstances_paginates_witness :
    wellFormedPages threePages = true ∧ threePages.length ≤ 3 ∧
    (∃ fin, listManagedInstances.run scriptedService threePages [] 3 = some fin ∧
      fin.requests = [⟨50, none⟩, ⟨50, some (str "t1")⟩, ⟨50, some (str "t2")⟩]) ∧
    (listManagedInstances scriptedService threePages [] 3).map
        (fun c => c.map Instance.InstanceID)
      = some [str "i-01", str "i-02", str "i-03", str "i-04"] := by
  obtain ⟨hserve, hall⟩ := listManagedInstances_paginates [] threePages 3 (by decide) (by decide)
  obtain ⟨fin, h1, h2, -, -, h⟩ := hall _ scriptedService threePages hserve
  refine ⟨by decide, by decide, ⟨fin, h1, ?_⟩, ?_⟩
  · rw [h2]; decide
  · rw [h]; decide

theorem merge_foldl_nomatch (id : GoString) (l : List Instance) (e : Instance)
    (h : ∀ j ∈ l, j.InstanceID ≠ id) :
    l.foldl
      (fun e j =>
        if id = j.InstanceID then
          { e with Name := j.Name, PublicIPAddress := j.PublicIPAddress,
                   InstanceState := j.InstanceState }
        else e) e = e := by
  induction l generalizing e with
  | nil => rfl
  | cons a l ih =>
    have ha : ¬ id = a.InstanceID := fun hh => h a (List.mem_cons_self _ _) hh.symm
    rw [List.foldl_cons, if_neg ha]
    exact ih e (fun j hj => h j (List.mem_cons_of_mem _ hj))

theorem merge_foldl_keep (id : GoString) (l : List Instance) (e : Instance) :
    let r := l.foldl
      (fun e j =>
        if id = j.InstanceID then
          { e with Name := j.Name, PublicIPAddress := j.PublicIPAddress,
                   InstanceState := j.InstanceState }
        else e) e
    r.InstanceID = e.InstanceID ∧ r.ComputerName = e.ComputerName ∧
    r.PrivateIPAddress = e.PrivateIPAddress ∧ r.AgentState = e.AgentState ∧
    r.PlatformType = e.PlatformType ∧ r.PlatformName = e.PlatformName := by
  induction l generalizing e with
  | nil => simp
  | cons a l ih =>
    simp only [List.foldl_cons]
    by_cases ha : id = a.InstanceID
    · rw [if_pos ha]
      exact ih _
    · rw [if_neg ha]
      exact ih _

theorem managedRecord_eq (allInstances : List Instance) (i : ssm.InstanceInformation) :
    managedRecord allInstances i
      = allInstances.foldl
          (fun e j =>
            if i.InstanceId = j.InstanceID then
              { e with Name := j.Name, PublicIPAddress := j.PublicIPAddress,
                       InstanceState := j.InstanceState }
            else e)
          { InstanceID := i.InstanceId, ComputerName := i.ComputerName,
            PrivateIPAddress := i.IPAddress, PublicIPAddress := [], Name := [],
            InstanceState := [],
            AgentState := if i.PingStatus ≠ str "Online" then str "Offline" else i.PingStatus,
            PlatformType := i.PlatformType,
            PlatformName := i.PlatformName ++ str " " ++ i.PlatformVersion } := by
  unfold managedRecord
  by_cases h : i.PingStatus ≠ str "Online"
  · simp only [if_pos h]; rfl
  · simp only [if_neg h]; rfl

/-- The record built for an item is the merge of the item with the snapshot. -/
theorem managedRecord_merged (allInstances : List Instance) (i : ssm.InstanceInformation) :
    Merged allInstances i (managedRecord allInstances i) := by
  rw [managedRecord_eq]
  obtain ⟨k1, k2, k3, -, k5, k6⟩ := merge_foldl_keep i.InstanceId allInstances
    { InstanceID := i.InstanceId, ComputerName := i.ComputerName,
      PrivateIPAddress := i.IPAddress, PublicIPAddress := [], Name := [],
      InstanceState := [],
      AgentState := if i.PingStatus ≠ str "Online" then str "Offline" else i.PingStatus,
      PlatformType := i.PlatformType,
      PlatformName := i.PlatformName ++ str " " ++ i.PlatformVersion }
  refine ⟨k1, k2, k3, k5, k6, ?_, ?_⟩
  · rintro before j after rfl hj hafter
    rw [List.foldl_append, List.foldl_cons, if_pos hj.symm,
      merge_foldl_nomatch _ after _ hafter]
    exact ⟨rfl, rfl, rfl⟩
  · intro hno
    rw [merge_foldl_nomatch _ allInstances _ hno]
    exact ⟨rfl, rfl, rfl⟩

theorem managedRecord_agentState (allInstances : List Instance) (i : ssm.InstanceInformation) :
    (managedRecord allInstances i).AgentState
      = if i.PingStatus ≠ str "Online" then str "Offline" else i.PingStatus := by
  rw [managedRecord_eq]
  exact (merge_foldl_keep i.InstanceId allInstances _).2.2.2.1

/-- C1. Merge in `listManagedInstances`: for every snapshot `allInstances`
and every managed item, the identifier, host name, private address and
platform fields of the catalog record come from the item; if the snapshot
has a record with the identifier of the item, the Name, PublicIPAddress and
InstanceState of the catalog record are those of the last such record of the
snapshot; if it has none, the three fields are empty.  This holds of the
record built for an item, and of every record of the catalog against its
item when the service answers with a sequence of pages. -/
theorem listManagedInstances_merges (allInstances : List Instance) :
    (∀ i, Merged allInstances i (managedRecord allInstances i)) ∧
    ∀ (σ : Type) (client : InformationApi σ) (service : σ)
      (pages : List ssm.DescribeInstanceInformationOutput) (fuel : Nat),
      ServesPages client service { MaxResults := 50, NextToken := none } pages →
      pages.length ≤ fuel →
      ∃ catalog, listManagedInstances client service allInstances fuel = some catalog ∧
        List.Forall₂ (Merged allInstances) (pageItems pages) catalog := by
  refine ⟨managedRecord_merged allInstances, ?_⟩
  intro σ client service pages fuel hserve hfuel
  obtain ⟨fin, hfin, hi, -⟩ := loop_serves client allInstances pages fuel service
    { input := { MaxResults := 50, NextToken := none }, instances := [], requests := [] }
    hserve hfuel
  refine ⟨fin.instances, ?_, ?_⟩
  · unfold listManagedInstances listManagedInstances.run
    rw [hfin, Option.map_some']
  · rw [hi, List.nil_append, List.forall₂_map_right_iff, List.forall₂_same]
    intro i _
    exact managedRecord_merged allInstances i

/-- Three pages merged with a snapshot that holds two records for `i-01` and
one for `i-03`: the last record of `i-01` wins, `i-02` and `i-04` stay empty. -/
theorem listManagedInstances_merges_witness :
    ServesPages threePageService () { MaxResults := 50, NextToken := none } threePages ∧
    threePages.length ≤ 3 ∧
    (∃ catalog, listManagedInstances threePageService () sampleSnapshot 3 = some catalog ∧
      List.Forall₂ (Merged sampleSnapshot) (pageItems threePages) catalog) ∧
    (listManagedInstances threePageService () sampleSnapshot 3).map
        (fun c => c.map (fun e => (e.InstanceID, e.Name, e.PublicIPAddress, e.InstanceState)))
      = some [(str "i-01", str "web", str "198.51.100.4", str "running"),
              (str "i-02", [], [], []),
              (str "i-03", str "win", str "N/A", str "running"),
              (str "i-04", [], [], [])] :=
  ⟨threePageService_serves, by decide,
    (listManagedInstances_merges sampleSnapshot).2 Unit threePageService () threePages 3
      threePageService_serves (by decide),
    by decide⟩

/-! The header counts. -/

theorem countOnline_foldl (l : List Instance) (c : Int) :
    l.foldl (fun countOnline i => if i.AgentState = str "Online" then countOnline + 1
      else countOnline) c
      = c + ((l.countP (fun e => e.AgentState == str "Online") : Nat) : Int) := by
  induction l generalizing c with
  | nil => simp
  | cons a l ih =>
    rw [List.foldl_cons, ih]
    by_cases h : a.AgentState = str "Online"
    · rw [if_pos h, List.countP_cons]
      simp only [h, beq_self_eq_true, if_true]
      push_cast
      ring
    · have hb : (a.AgentState == str "Online") = false := by simp [h]
      rw [if_neg h, List.countP_cons]
      simp only [hb, Bool.false_eq_true, if_false, Nat.add_zero]

theorem countOnline_eq_countP (l : List Instance) :
    countOnline l = ((l.countP (fun e => e.AgentState == str "Online") : Nat) : Int) := by
  unfold countOnline
  rw [countOnline_foldl]
  simp

theorem managedRecord_online_iff (allInstances : List Instance) (i : ssm.InstanceInformation) :
    ((managedRecord allInstances i).AgentState == str "Online")
      = (i.PingStatus == str "Online") := by
  rw [managedRecord_agentState]
  by_cases h : i.PingStatus = str "Online"
  · simp [h]
  · have hne : str "Offline" ≠ str "Online" := by decide
    simp [h, hne]

theorem managedRecord_offline_iff (allInstances : List Instance) (i : ssm.InstanceInformation) :
    ((managedRecord allInstances i).AgentState == str "Offline")
      = (i.PingStatus != str "Online") := by
  rw [managedRecord_agentState]
  by_cases h : i.PingStatus = str "Online"
  · have hne : str "Online" ≠ str "Offline" := by decide
    simp [h, hne]
  · simp [h]

/-- C9. Header counts of `selectInstance`: for the catalog that the managed
listing returns, the displayed online count is the number of managed items
whose ping status is `Online`, the displayed offline count (total minus
online) is the number of the other items, which is the number of records
whose agent state is `Offline`; both counts are non-negative and their sum
is the number of managed instances. -/
theorem selectInstance_header_counts {σ : Type} (mapUnicode : GoString → GoString)
    (client : InformationApi σ) (service : σ) (allInstances : List Instance)
    (pages : List ssm.DescribeInstanceInformationOutput) (fuel : Nat)
    (hserve : ServesPages client service { MaxResults := 50, NextToken := none } pages)
    (hfuel : pages.length ≤ fuel) :
    ∃ catalog, listManagedInstances client service allInstances fuel = some catalog ∧
      catalog.length = (pageItems pages).length ∧
      (selectInstance.prompt mapUnicode allInstances catalog).Label
        = str "Online: " ++ Itoa (countOnline catalog) ++ str " | Offline: "
          ++ Itoa (countOffline catalog) ++ str " | Running: "
          ++ Itoa (countRunning allInstances) ++ str " " ∧
      countOnline catalog
        = (((pageItems pages).countP (fun i => i.PingStatus == str "Online") : Nat) : Int) ∧
      countOffline catalog
        = (((pageItems pages).countP (fun i => i.PingStatus != str "Online") : Nat) : Int) ∧
      countOffline catalog
        = ((catalog.countP (fun e => e.AgentState == str "Offline") : Nat) : Int) ∧
      0 ≤ countOnline catalog ∧ 0 ≤ countOffline catalog ∧
      countOnline catalog + countOffline catalog = (catalog.length : Int) := by
  obtain ⟨fin, hfin, hi, -⟩ := loop_serves client allInstances pages fuel service
    { input := { MaxResults := 50, NextToken := none }, instances := [], requests := [] }
    hserve hfuel
  rw [List.nil_append] at hi
  have hon : countOnline fin.instances
      = (((pageItems pages).countP (fun i => i.PingStatus == str "Online") : Nat) : Int) := by
    rw [countOnline_eq_countP, hi, List.countP_map]
    congr 2
    funext i
    exact managedRecord_online_iff allInstances i
  have hoffc : (fin.instances.countP (fun e => e.AgentState == str "Offline"))
      = (pageItems pages).countP (fun i => i.PingStatus != str "Online") := by
    rw [hi, List.countP_map]
    congr 1
    funext i
    exact managedRecord_offline_iff allInstances i
  have hlen : fin.instances.length = (pageItems pages).length := by
    rw [hi, List.length_map]
  have hsplit := List.length_eq_countP_add_countP
    (fun i : ssm.InstanceInformation => i.PingStatus == str "Online") (pageItems pages)
  have hnot : (pageItems pages).countP
      (fun i => decide ¬ (i.PingStatus == str "Online") = true)
      = (pageItems pages).countP (fun i => i.PingStatus != str "Online") := by
    congr 1
    funext i
    by_cases h : i.PingStatus = str "Online" <;> simp [h]
  rw [hnot] at hsplit
  have hoff : countOffline fin.instances
      = (((pageItems pages).countP (fun i => i.PingStatus != str "Online") : Nat) : Int) := by
    unfold countOffline
    rw [hon, hlen]
    omega
  refine ⟨fin.instances, ?_, hlen, rfl, hon, hoff, ?_, ?_, ?_, ?_⟩
  · unfold listManagedInstances listManagedInstances.run
    rw [hfin, Option.map_some']
  · rw [hoff, hoffc]
  · rw [hon]; omega
  · rw [hoff]; omega
  · rw [hon, hoff, hlen]; omega

/-- Three pages with four items, two of them online: the header shows two
online and two offline. -/
theorem selectInstance_header_counts_witness :
    ServesPages threePageService () { MaxResults := 50, NextToken := none } threePages ∧
    threePages.length ≤ 3 ∧
    ∃ catalog, listManagedInstances threePageService () sampleSnapshot 3 = some catalog ∧
      catalog.length = 4 ∧ countOnline catalog = 2 ∧ countOffline catalog = 2 := by
  obtain ⟨catalog, h1, h2, -, h4, h5, -⟩ :=
    selectInstance_header_counts id threePageService () sampleSnapshot threePages 3
      threePageService_serves (by decide)
  refine ⟨threePageService_serves, by decide, catalog, h1, ?_, ?_, ?_⟩
  · rw [h2]; decide
  · rw [h4]; decide
  · rw [h5]; decide

/-! The instance search. -/

/-- The model of `strings.Contains` holds exactly for substrings. -/
theorem contains_iff (s substr : GoString) :
    Contains s substr = true ↔ ∃ before after, s = before ++ substr ++ after := by
  unfold Contains
  rw [List.any_eq_true]
  constructor
  · rintro ⟨t, ht, hp⟩
    rw [List.mem_tails] at ht
    rw [ List.isPrefixOf_iff_prefix] at hp
    obtain ⟨before, rfl⟩ := ht
    obtain ⟨after, rfl⟩ := hp
    exact ⟨before, after, by simp⟩
  · rintro ⟨before, after, rfl⟩
    refine ⟨substr ++ after, ?_, ?_⟩
    · rw [List.mem_tails]
      exact ⟨before, by simp⟩
    · rw [ List.isPrefixOf_iff_prefix]
      exact ⟨after, rfl⟩

/-- C7, as stated, fails: the Name of the record is `a`, a tab, `b`, and the
input is `ab`.  With all white space removed the input is a substring of the
fields of the record, yet the searcher, which removes only spaces, does not
match.  (All strings are ASCII, so the Unicode case mapping is not used.) -/
theorem searcher_keeps_tab :
    [tabRecord][0]? = some tabRecord ∧
    selectInstance.searcher id [tabRecord] (str "ab") 0 = some false ∧
    Contains (normalizeAllWhitespace id (allFields tabRecord))
      (normalizeAllWhitespace id (str "ab")) = true := by
  refine ⟨rfl, by decide, by decide⟩

/-- C7, amended. Instance search: for every record and every input, the
searcher matches exactly when the input, lower-cased and with all space
bytes (U+0020, and no other white space) removed, is a substring of the
concatenation of the nine fields of the record, lower-cased and with all
space bytes removed. -/
theorem searcher_matches (mapUnicode : GoString → GoString) (managedInstances : List Instance)
    (index : Nat) (j : Instance) (input : GoString)
    (hj : managedInstances[index]? = some j) :
    ∃ b, selectInstance.searcher mapUnicode managedInstances input index = some b ∧
      (b = true ↔ ∃ before after,
        (ToLower mapUnicode (allFields j)).filter (fun c => c != 32)
          = before ++ (ToLower mapUnicode input).filter (fun c => c != 32) ++ after) := by
  refine ⟨_, ?_, contains_iff _ _⟩
  unfold selectInstance.searcher
  rw [hj]
  rfl

/-- The input `3 WEBS` matches the record `i-0f3` named `Web Server`. -/
theorem searcher_matches_witness :
    [webRecord][0]? = some webRecord ∧
    selectInstance.searcher id [webRecord] (str "3 WEBS") 0 = some true := by
  obtain ⟨b, hb, hiff⟩ := searcher_matches id [webRecord] 0 webRecord (str "3 WEBS") rfl
  refine ⟨rfl, ?_⟩
  rw [hb]
  congr 1
  rw [hiff]
  exact ⟨str "i-0f", str "erver", by decide⟩

/-! The orchestrator. -/

/-- C5, at the failing input: without `-r` and with `AWS_DEFAULT_REGION` set
to `us-east-1`, the region of `main` is the default `eu-west-1`, not the
value of the variable; the session and the launcher get `eu-west-1`. -/
theorem mainRegion_ignores_environment :
    regionEnv (str "AWS_DEFAULT_REGION") = some (str "us-east-1") ∧
    mainRegion { p := none, r := none, i := none } regionEnv = str "eu-west-1" ∧
    mainRegion { p := none, r := none, i := none } regionEnv ≠ str "us-east-1" ∧
    main id { p := none, r := none, i := some (str "i-0abc") } regionWorld 1
      = [Event.newSession (str "dev") (str "eu-west-1"),
         Event.startSSH (str "i-0abc") (str "eu-west-1") (str "dev")] := by
  refine ⟨by decide, by decide, by decide, by decide⟩

theorem launches_append (a b : List Event) : launches (a ++ b) = launches a ++ launches b := by
  induction a with
  | nil => rfl
  | cons e a ih => cases e <;> simp [launches, ih]

theorem launches_of_startup (t : List Event) (h : ∀ e ∈ t, isStartupEvent e = true) :
    launches t = [] := by
  induction t with
  | nil => rfl
  | cons e t ih =>
    have he := h e (List.mem_cons_self _ _)
    have ht := ih (fun e' he' => h e' (List.mem_cons_of_mem _ he'))
    cases e <;> simp_all [launches, isStartupEvent]

theorem not_catalog_of_startup (e : Event) (h : isStartupEvent e = true) :
    isCatalogCall e = false := by
  cases e <;> simp_all [isStartupEvent, isCatalogCall]

theorem resolveProfile_events {σ : Type} (mapUnicode : GoString → GoString) (w : World σ)
    (profile : GoString) :
    ∀ e ∈ (resolveProfile mapUnicode w profile).1, isStartupEvent e = true := by
  unfold resolveProfile
  split_ifs
  · simp
  · simp
  · cases listProfiles w.configFile <;> simp [isStartupEvent]
  · simp

theorem startup_events {σ : Type} (mapUnicode : GoString → GoString) (cl : CommandLine)
    (w : World σ) :
    ∀ e ∈ (main.startup mapUnicode cl w).1, isStartupEvent e = true := by
  have hr := resolveProfile_events mapUnicode w (flagString cl.p [])
  unfold main.startup
  rcases hres : resolveProfile mapUnicode w (flagString cl.p []) with ⟨events, r⟩
  rw [hres] at hr
  simp only [hres]
  simp only at hr
  cases r with
  | error h =>
    simp only
    intro e he
    rcases List.mem_append.1 he with h1 | h1
    · exact hr e h1
    · simp at h1; subst h1; rfl
  | ok profile =>
    simp only
    split_ifs
    · intro e he
      rcases List.mem_append.1 he with h1 | h1
      · exact hr e h1
      · simp at h1; subst h1; rfl
    · intro e he
      rcases List.mem_append.1 he with h1 | h1
      · exact hr e h1
      · simp at h1
        rcases h1 with h1 | h1 <;> subst h1 <;> rfl

theorem connect_direct {σ : Type} (mapUnicode : GoString → GoString) (w : World σ)
    (fuel : Nat) (inst region profile : GoString) (h : inst ≠ []) :
    main.connect mapUnicode w fuel inst region profile
      = [Event.startSSH inst region profile] := by
  unfold main.connect
  rw [if_pos h]

theorem connect_selected {σ : Type} (mapUnicode : GoString → GoString) (w : World σ)
    (fuel : Nat) (region profile : GoString) (id r p : GoString)
    (h : Event.startSSH id r p ∈ main.connect mapUnicode w fuel [] region profile) :
    id ≠ [] ∧ Event.selectInstance (some id)
      ∈ main.connect mapUnicode w fuel [] region profile := by
  unfold main.connect at h ⊢
  simp only [ne_eq, not_true_eq_false, if_false] at h ⊢
  cases hall : listAllInstances w.describeInstances with
  | error err => rw [hall] at h; simp at h
  | ok allInstances =>
    rw [hall] at h
    simp only at h ⊢
    cases hman : listManagedInstances w.describeInstanceInformation w.informationService
        allInstances fuel with
    | none => rw [hman] at h; simp at h
    | some managedInstances =>
      rw [hman] at h
      simp only at h ⊢
      by_cases hlen : managedInstances.length = 0
      · rw [if_pos hlen] at h; simp at h
      · rw [if_neg hlen] at h ⊢
        cases hsel : selectInstance mapUnicode w.runInstancePrompt allInstances
            managedInstances with
        | none => rw [hsel] at h; simp at h
        | some selected =>
          rw [hsel] at h
          simp only at h ⊢
          by_cases hs : selected = []
          · rw [if_neg (not_not.2 hs)] at h; simp at h
          · rw [if_pos hs] at h ⊢
            simp at h
            obtain ⟨rfl, -, -⟩ := h
            exact ⟨hs, by simp⟩

/-- C6, as stated, fails: `-i` is given, no profile comes from the flag or
the environment, and the operator cancels the profile prompt; the program
exits before the connection, so the launcher is not called once but never. -/
theorem main_cancelled_before_launch :
    flagString (some (str "i-0abc")) [] ≠ [] ∧
    main id { p := none, r := none, i := some (str "i-0abc") } cancelWorld 1
      = [Event.listProfiles, Event.selectProfile [str "dev"], Event.halt (Halt.exit 0)] ∧
    launches (main id { p := none, r := none, i := some (str "i-0abc") } cancelWorld 1)
      ≠ [str "i-0abc"] := by
  refine ⟨by decide, by decide, by decide⟩

/-- C6, amended. Direct connection in `main`: when a non-empty identifier is
given with `-i`, no run calls the full listing, the managed listing or the
instance selector; the launcher is called exactly once, with that identifier,
when the start of `main` completes (profile resolved, session created), and
is not called otherwise.  When `-i` is empty, the launcher is called only
with the identifier that the selector returned, and only if that identifier
is not empty. -/
theorem main_direct_connection {σ : Type} (mapUnicode : GoString → GoString)
    (cl : CommandLine) (w : World σ) (fuel : Nat) :
    (flagString cl.i [] ≠ [] →
      (∀ e ∈ main mapUnicode cl w fuel, isCatalogCall e = false) ∧
      ((main.startup mapUnicode cl w).2 ≠ none →
        launches (main mapUnicode cl w fuel) = [flagString cl.i []]) ∧
      ((main.startup mapUnicode cl w).2 = none →
        launches (main mapUnicode cl w fuel) = [])) ∧
    (flagString cl.i [] = [] →
      ∀ id region profile, Event.startSSH id region profile ∈ main mapUnicode cl w fuel →
        id ≠ [] ∧ Event.selectInstance (some id) ∈ main mapUnicode cl w fuel) := by
  have hs := startup_events mapUnicode cl w
  unfold main
  rcases hst : main.startup mapUnicode cl w with ⟨events, r⟩
  rw [hst] at hs
  simp only [hst]
  simp only at hs
  constructor
  · intro hi
    cases r with
    | none =>
      simp only
      refine ⟨fun e he => not_catalog_of_startup e (hs e he), fun h => absurd rfl h,
        fun _ => launches_of_startup events hs⟩
    | some pr =>
      obtain ⟨profile, region⟩ := pr
      simp only
      rw [connect_direct mapUnicode w fuel _ region profile hi]
      refine ⟨?_, ?_, fun h => by simp at h⟩
      · intro e he
        rcases List.mem_append.1 he with h1 | h1
        · exact not_catalog_of_startup e (hs e h1)
        · simp at h1; subst h1; rfl
      · intro _
        rw [launches_append, launches_of_startup events hs]
        rfl
  · intro hi id region profile hmem
    cases r with
    | none =>
      simp only at hmem
      have := hs _ hmem
      simp [isStartupEvent] at this
    | some pr =>
      obtain ⟨profile', region'⟩ := pr
      simp only at hmem ⊢
      rw [hi] at hmem ⊢
      rcases List.mem_append.1 hmem with h1 | h1
      · have := hs _ h1
        simp [isStartupEvent] at this
      · obtain ⟨h2, h3⟩ :=
          connect_selected mapUnicode w fuel region' profile' id region profile h1
        exact ⟨h2, List.mem_append_right _ h3⟩

/-- With `-i` and a profile the launcher is called once with the identifier;
without `-i` it is called with the identifier the selector returned. -/
theorem main_direct_connection_witness :
    (flagString (some (str "i-0abc")) [] ≠ [] ∧
      (main.startup id { p := some (str "dev"), r := none, i := some (str "i-0abc") }
        cancelWorld).2 ≠ none ∧
      launches (main id { p := some (str "dev"), r := none, i := some (str "i-0abc") }
        cancelWorld 1) = [str "i-0abc"]) ∧
    (flagString none [] = [] ∧
      Event.startSSH (str "i-07") (str "eu-west-1") (str "dev")
        ∈ main id { p := none, r := none, i := none } pickWorld 1 ∧
      Event.selectInstance (some (str "i-07"))
        ∈ main id { p := none, r := none, i := none } pickWorld 1) := by
  have h1 := (main_direct_connection id
    { p := some (str "dev"), r := none, i := some (str "i-0abc") } cancelWorld 1).1 (by decide)
  have h2 := (main_direct_connection id { p := none, r := none, i := none } pickWorld 1).2
    (by decide) (str "i-07") (str "eu-west-1") (str "dev") (by decide)
  exact ⟨⟨by decide, by decide, h1.2.1 (by decide)⟩, by decide, by decide, h2.2⟩

end Sshm
